import Mathlib

set_option maxRecDepth 20000

/-!
Verification of the upload lifecycle manager of the file-management dashboard.

The definitions below are a shallow embedding of the frontend source:
  - src/frontend/src/lib/validators.ts        (validateFileSize, validateFilename, validateFile)
  - src/frontend/src/hooks/useFileUpload      (upload, cancel, cancelAllActiveUploads,
                                               the module-level activeUploadCancelFunctions map)
  - src/frontend/src/components/FileUpload.tsx (handleFileSelect)
  - src/frontend/src/App.tsx                  (useCheckDuplicateFilename)
  - src/frontend/src/types/file.ts            (constants, UploadStatus, FileUploadProgress)

JavaScript platform operations at the boundary (JSON.parse, XMLHttpRequest, the
event loop) are modelled explicitly: a response body is carried as the result of
JSON.parse, namely an optional JSON value (none when the text is not valid JSON);
the XHR transport is a phase recorded on the hook state, and browser event handlers
are state transformers that run to completion (cooperative single-threaded model).
-/

namespace UploadModel

/-- JSON value as produced by a successful JSON.parse. Arrays are omitted: no
handler in the source distinguishes an array body from any other parsed value,
so they would only enlarge the input space without changing any transition. -/
inductive Jsonv where
  | jnull : Jsonv
  | jbool (b : Bool) : Jsonv
  | jnum (n : Int) : Jsonv
  | jstr (s : String) : Jsonv
  | jobj (fields : List (String × Jsonv)) : Jsonv

/-- Field lookup in a parsed JSON object (first binding wins; the objects that
reach this code have distinct keys). -/
def lookupField : List (String × Jsonv) → String → Option Jsonv
  | [], _ => none
  | (k, v) :: rest, key => if k = key then some v else lookupField rest key

/-- Property access `v.key` in JavaScript: a field of an object, `undefined`
(modelled as none) on every other value. -/
def jsField : Jsonv → String → Option Jsonv
  | .jobj fields, key => lookupField fields key
  | _, _ => none

/-- JavaScript truthiness of a parsed JSON value. -/
def jsTruthy : Jsonv → Bool
  | .jnull => false
  | .jbool b => b
  | .jnum n => n != 0
  | .jstr s => s != ""
  | .jobj _ => true

/-- JavaScript string coercion of a parsed JSON value, as applied by
`new Error(x)` and `setError(x)` when `x` is not already a string. -/
def jsToString : Jsonv → String
  | .jnull => "null"
  | .jbool true => "true"
  | .jbool false => "false"
  | .jnum n => toString n
  | .jstr s => s
  | .jobj _ => "[object Object]"

/-- The JavaScript `a || b` chain on possibly-undefined values: the first
operand that is present and truthy. -/
def jsOrVals (a b : Option Jsonv) : Option Jsonv :=
  match a with
  | some v => if jsTruthy v then some v else b
  | none => b

/-- Embedding of `errorResponse.detail?.message || errorResponse.detail || errorMsg`
from the non-2xx load branch of `upload`. -/
def extractErrorMsg (body : Jsonv) (dflt : String) : String :=
  let detail := jsField body "detail"
  let detailMessage := match detail with
    | some v => jsField v "message"
    | none => none
  match jsOrVals detailMessage (jsOrVals detail none) with
  | some v => jsToString v
  | none => dflt

/-- The JavaScript `a || b` where `a` is a possibly-undefined string: the empty
string is falsy and also falls through to the default. -/
def jsOrString (a : Option String) (b : String) : String :=
  match a with
  | some s => if s = "" then b else s
  | none => b

/-- Whitespace for the purposes of JS `String.prototype.trim` and the regex
class `\s` (the two use the same WhiteSpace/LineTerminator set). The Unicode
space separators beyond ASCII are not listed; no input in this development
contains them. -/
def isJsSpace (c : Char) : Bool :=
  c = ' ' || c = '\t' || c = '\n' || c = '\r' || c = '\x0b' || c = '\x0c'

/-- Embedding of JS `String.prototype.trim`. -/
def jsTrim (s : String) : String :=
  ⟨((s.data.dropWhile isJsSpace).reverse.dropWhile isJsSpace).reverse⟩

/-- Whether the character list starts with the given pattern. -/
def listStartsWith : List Char → List Char → Bool
  | [], _ => true
  | _ :: _, [] => false
  | p :: ps, c :: cs => p = c && listStartsWith ps cs

/-- Whether the pattern occurs somewhere in the text. -/
def listHasSub (pat : List Char) : List Char → Bool
  | [] => listStartsWith pat []
  | c :: cs => listStartsWith pat (c :: cs) || listHasSub pat cs

/-- Embedding of JS `String.prototype.includes`. -/
def strIncludes (s pat : String) : Bool :=
  listHasSub pat.data s.data

/-- The ASCII apostrophe character, a member of the invalid-character class. -/
def singleQuoteChar : Char := Char.ofNat 39

/-- The ASCII backquote character, a member of the invalid-character class. -/
def backquoteChar : Char := Char.ofNat 96

/-- The ASCII double-quote character, a member of the invalid-character class. -/
def doubleQuoteChar : Char := Char.ofNat 34

/-- Membership in the regex class of `/[<>"'`\n\r\t\0/\\]/` from validators.ts. -/
def isInvalidFilenameChar (c : Char) : Bool :=
  c = '<' || c = '>' || c = doubleQuoteChar || c = singleQuoteChar ||
  c = backquoteChar || c = '\n' || c = '\r' || c = '\t' || c = '\x00' ||
  c = '/' || c = '\\'

/-- Test of the invalid-character regex against a filename. -/
def hasInvalidFilenameChar (s : String) : Bool :=
  s.data.any isInvalidFilenameChar

/-- Membership in the class of ALLOWED_FILENAME_PATTERN, which is
`/^[a-zA-Z0-9._\-\s()]+$/` in types/file.ts. -/
def isAllowedFilenameChar (c : Char) : Bool :=
  ('a' ≤ c && c ≤ 'z') || ('A' ≤ c && c ≤ 'Z') || ('0' ≤ c && c ≤ '9') ||
  c = '.' || c = '_' || c = '-' || isJsSpace c || c = '(' || c = ')'

/-- Test of ALLOWED_FILENAME_PATTERN against a filename: one or more allowed
characters spanning the whole string. -/
def allowedFilenamePattern (s : String) : Bool :=
  s.data ≠ [] && s.data.all isAllowedFilenameChar

/-- MAX_FILE_SIZE from types/file.ts. -/
def MAX_FILE_SIZE : Nat := 52428800

/-- MAX_FILENAME_LENGTH from types/file.ts. -/
def MAX_FILENAME_LENGTH : Nat := 255

/-- A browser File as far as the core reads it: declared name and size. -/
structure JFile where
  name : String
  size : Nat
deriving Repr, DecidableEq

/-- ValidationResult from validators.ts. -/
structure ValidationResult where
  valid : Bool
  error : Option String := none
deriving Repr, DecidableEq

/-- The message of the too-large branch; `(MAX_FILE_SIZE / (1024 * 1024)).toFixed(0)`
evaluates to the exact string "50". -/
def tooLargeMsg : String :=
  "File size exceeds " ++ toString (MAX_FILE_SIZE / (1024 * 1024)) ++ "MB limit"

/-- The message of the name-length branch. -/
def nameTooLongMsg : String :=
  "Filename exceeds maximum length of " ++ toString MAX_FILENAME_LENGTH ++ " characters"

/-- The message of the path-traversal branch. -/
def pathTraversalMsg : String :=
  "Filename cannot contain path traversal sequences (..)"

/-- The message of the invalid-character branch, rebuilt from its character
codes where the source uses quoting. -/
def invalidCharsMsg : String :=
  "Filename contains invalid characters (<, >, " ++ doubleQuoteChar.toString ++
  ", " ++ singleQuoteChar.toString ++ ", " ++ backquoteChar.toString ++
  ", /, \\, newline, tab, null)"

/-- The message of the disallowed-pattern branch. -/
def disallowedPatternMsg : String :=
  "Filename can only contain letters, numbers, dots, underscores, hyphens, spaces, and parentheses"

/-- Embedding of validateFileSize from validators.ts. -/
def validateFileSize (file : JFile) : ValidationResult :=
  if file.size = 0 then
    { valid := false, error := some "Cannot upload empty file" }
  else if file.size > MAX_FILE_SIZE then
    { valid := false, error := some tooLargeMsg }
  else
    { valid := true }

/-- Embedding of validateFilename from validators.ts. The JS emptiness test
`!filename || !filename.trim()` asks whether the string, or its trim, is empty;
`filename.length` counts UTF-16 units, equal to the character count for every
filename in this development. -/
def validateFilename (filename : String) : ValidationResult :=
  if filename = "" || jsTrim filename = "" then
    { valid := false, error := some "Filename cannot be empty" }
  else if filename.length > MAX_FILENAME_LENGTH then
    { valid := false, error := some nameTooLongMsg }
  else if strIncludes filename ".." then
    { valid := false, error := some pathTraversalMsg }
  else if hasInvalidFilenameChar filename then
    { valid := false, error := some invalidCharsMsg }
  else if !allowedFilenamePattern filename then
    { valid := false, error := some disallowedPatternMsg }
  else
    { valid := true }

/-- Embedding of validateFile from validators.ts: size checks then name checks. -/
def validateFile (file : JFile) : ValidationResult :=
  let sizeValidation := validateFileSize file
  if !sizeValidation.valid then
    sizeValidation
  else
    let filenameValidation := validateFilename file.name
    if !filenameValidation.valid then
      filenameValidation
    else
      { valid := true }

/-- UploadStatus from types/file.ts. -/
inductive UploadStatus where
  | queued : UploadStatus
  | uploading : UploadStatus
  | processing : UploadStatus
  | completed : UploadStatus
  | failed : UploadStatus
deriving Repr, DecidableEq

/-- FileUploadProgress from types/file.ts. -/
structure FileUploadProgress where
  filename : String
  loaded : Nat
  total : Nat
  percentage : Nat
  status : UploadStatus
  error : Option String := none
deriving Repr, DecidableEq

/-- Math.round((loaded / total) * 100) as exact half-up rounding of the
rational 100 * loaded / total. The source computes in IEEE doubles, whose
value agrees with the exact rounding except on ties perturbed by the final
bit of the quotient; the specification states the exact formula. -/
def jsRound100 (loaded total : Nat) : Nat :=
  (200 * loaded + total) / (2 * total)

/-- Phase of the XMLHttpRequest held in xhrRef: created but not yet sent
(the upload is awaiting the credential fetch inside getTokenAndSend), sent
and in flight, or settled (its single load / error / abort event has been
delivered, or it was aborted; no further event will fire, and abort() on it
fires nothing). -/
inductive XhrPhase where
  | unsent : XhrPhase
  | inflight : XhrPhase
  | settled : XhrPhase
deriving Repr, DecidableEq

/-- State owned by one useFileUpload hook instance: the three published React
state cells and the two refs. The xhrRef keeps, besides presence, the phase of
the request it points to. -/
structure HookState where
  progress : Option FileUploadProgress
  uploading : Bool
  error : Option String
  xhrRef : Option XhrPhase
  uploadIdRef : Option Nat
deriving Repr, DecidableEq

/-- Hook state before any upload. -/
def HookState.init : HookState :=
  { progress := none, uploading := false, error := none, xhrRef := none, uploadIdRef := none }

/-- One upload session: the file handed to upload, the uploadId generated and
captured by the closures of that call, and the owning hook's state. -/
structure Session where
  file : JFile
  uploadId : Nat
  hook : HookState
deriving Repr, DecidableEq

/-- Observable outputs of a step: setProgress publications and the caller's
callbacks. onSuccess is always paired with resolve and onError with
reject / throw in the source, so one constructor stands for each pair. -/
inductive Emit where
  | pub (p : Option FileUploadProgress) : Emit
  | cbProgress (p : FileUploadProgress) : Emit
  | cbSuccess (payload : Jsonv) : Emit
  | cbError (msg : String) : Emit

/-- Whether an emit is one of the caller's terminal callbacks. -/
def Emit.isCallback : Emit → Bool
  | .cbSuccess _ => true
  | .cbError _ => true
  | _ => false

/-- Whether an emit is the error callback with the given message. -/
def Emit.isErrorCb (msg : String) : Emit → Bool
  | .cbError m => m = msg
  | _ => false

/-- Whether an emit is the success callback. -/
def Emit.isSuccessCb : Emit → Bool
  | .cbSuccess _ => true
  | _ => false

/-- Number of terminal callbacks in a list of emits. -/
def countCallbacks (es : List Emit) : Nat :=
  (es.filter Emit.isCallback).length

/-- The sequence of setProgress publications in a list of emits. -/
def pubList (es : List Emit) : List (Option FileUploadProgress) :=
  es.filterMap fun e => match e with
    | .pub p => some p
    | _ => none

/-- Result of running one synchronous piece of the source: the new session and
registry, the emits in order, whether a JS exception escaped an event handler
uncaught, and the message thrown synchronously out of upload itself. -/
structure StepOut where
  session : Session
  registry : List Nat
  emits : List Emit
  uncaught : Bool := false
  thrown : Option String := none

/-- Map.set on the registry key list: an existing key keeps its position, a
new key is appended in insertion order. -/
def regSet (reg : List Nat) (id : Nat) : List Nat :=
  if id ∈ reg then reg else reg ++ [id]

/-- The progress value published synchronously at the top of upload. -/
def initialProgress (file : JFile) : FileUploadProgress :=
  { filename := file.name, loaded := 0, total := file.size, percentage := 0,
    status := .uploading }

/-- The progress value published by the 2xx load branch. -/
def completedProgress (file : JFile) : FileUploadProgress :=
  { filename := file.name, loaded := file.size, total := file.size,
    percentage := 100, status := .completed }

/-- Embedding of the synchronous beginning of upload (useFileUpload): publish
the initial uploading progress, validate, and either terminate with the
validation error (onError then throw, no xhr ever created) or create the xhr,
register the cancel capability, attach the listeners and suspend inside
getTokenAndSend awaiting the credential fetch, with the request not yet sent. -/
def uploadStart (file : JFile) (id : Nat) (hook : HookState) (reg : List Nat) : StepOut :=
  let hook := { hook with uploadIdRef := some id, uploading := true, error := none,
                          progress := some (initialProgress file) }
  let startEmits := [Emit.pub (some (initialProgress file))]
  let validation := validateFile file
  if validation.valid then
    let hook := { hook with xhrRef := some .unsent }
    { session := ⟨file, id, hook⟩, registry := regSet reg id, emits := startEmits }
  else
    let errorMsg := jsOrString validation.error "File validation failed"
    let hook := { hook with error := some errorMsg, uploading := false, uploadIdRef := none }
    { session := ⟨file, id, hook⟩, registry := reg.erase id,
      emits := startEmits ++ [Emit.cbError errorMsg], thrown := some errorMsg }

/-- Embedding of the tail of getTokenAndSend resuming after the credential
fetch: xhr.open and xhr.send put the request in flight. An xhr that was
"aborted" while unsent is unaffected by that abort, so the send proceeds. -/
def sendComplete (s : Session) (reg : List Nat) : StepOut :=
  match s.hook.xhrRef with
  | some .unsent => { session := { s with hook := { s.hook with xhrRef := some .inflight } },
                      registry := reg, emits := [] }
  | _ => { session := s, registry := reg, emits := [] }

/-- Embedding of the xhr.upload progress listener. -/
def handleProgress (loaded total : Nat) (lengthComputable : Bool)
    (s : Session) (reg : List Nat) : StepOut :=
  if lengthComputable then
    let progressData : FileUploadProgress :=
      { filename := s.file.name, loaded := loaded, total := total,
        percentage := jsRound100 loaded total, status := .uploading }
    { session := { s with hook := { s.hook with progress := some progressData } },
      registry := reg,
      emits := [Emit.pub (some progressData), Emit.cbProgress progressData] }
  else
    { session := s, registry := reg, emits := [] }

/-- Embedding of the load listener. The body argument is the result of
JSON.parse on xhr.responseText: none when the text is not valid JSON. In the
non-2xx branch JSON.parse runs outside any try block, so an unparseable body
throws out of the handler before any state is written: the only effect is that
the xhr is now settled. The queryClient invalidation on success is an external
side effect outside this model. -/
def handleLoad (status : Nat) (body : Option Jsonv) (s : Session) (reg : List Nat) : StepOut :=
  let hook := { s.hook with xhrRef := some .settled }
  if 200 ≤ status ∧ status < 300 then
    match body with
    | some payload =>
        let p := completedProgress s.file
        let hook := { hook with progress := some p, uploading := false, uploadIdRef := none }
        { session := { s with hook }, registry := reg.erase s.uploadId,
          emits := [Emit.pub (some p), Emit.cbSuccess payload] }
    | none =>
        let errorMsg := "Failed to parse server response"
        let p : FileUploadProgress :=
          { filename := s.file.name, loaded := s.file.size, total := s.file.size,
            percentage := 100, status := .failed, error := some errorMsg }
        let hook := { hook with error := some errorMsg, uploading := false,
                                progress := some p, uploadIdRef := none }
        { session := { s with hook }, registry := reg.erase s.uploadId,
          emits := [Emit.pub (some p), Emit.cbError errorMsg] }
  else
    match body with
    | none =>
        { session := { s with hook }, registry := reg, emits := [], uncaught := true }
    | some b =>
        let errorMsg := extractErrorMsg b ("Upload failed with status " ++ toString status)
        let p : FileUploadProgress :=
          { filename := s.file.name, loaded := 0, total := s.file.size,
            percentage := 0, status := .failed, error := some errorMsg }
        let hook := { hook with error := some errorMsg, uploading := false,
                                progress := some p, uploadIdRef := none }
        { session := { s with hook }, registry := reg.erase s.uploadId,
          emits := [Emit.pub (some p), Emit.cbError errorMsg] }

/-- Embedding of the error listener (transport-level network error). -/
def handleError (s : Session) (reg : List Nat) : StepOut :=
  let errorMsg := "Network error during upload"
  let p : FileUploadProgress :=
    { filename := s.file.name, loaded := 0, total := s.file.size,
      percentage := 0, status := .failed, error := some errorMsg }
  let hook := { s.hook with xhrRef := some .settled, error := some errorMsg,
                            uploading := false, progress := some p, uploadIdRef := none }
  { session := { s with hook }, registry := reg.erase s.uploadId,
    emits := [Emit.pub (some p), Emit.cbError errorMsg] }

/-- Embedding of the abort listener: published progress is cleared, the
registry entry for the captured uploadId is removed, and the error callback
fires with "Upload cancelled". -/
def handleAbort (s : Session) (reg : List Nat) : StepOut :=
  let errorMsg := "Upload cancelled"
  let hook := { s.hook with xhrRef := some .settled, error := some errorMsg,
                            uploading := false, progress := none, uploadIdRef := none }
  { session := { s with hook }, registry := reg.erase s.uploadId,
    emits := [Emit.pub none, Emit.cbError errorMsg] }

/-- Embedding of cancel (useFileUpload). If xhrRef holds a request, abort it:
an in-flight request delivers its abort event synchronously (the handler runs
to completion inside abort()), while an unsent or settled request aborts
silently with no event: in particular an unsent request is left able to send.
The body then repeats the terminal writes and deregisters whatever uploadIdRef
currently names. When xhrRef is empty nothing happens at all. -/
def cancel (s : Session) (reg : List Nat) : StepOut :=
  match s.hook.xhrRef with
  | none => { session := s, registry := reg, emits := [] }
  | some phase =>
    let aborted :=
      if phase = .inflight then handleAbort s reg
      else { session := s, registry := reg, emits := [] : StepOut }
    let s1 := aborted.session
    let hook := { s1.hook with uploading := false, error := some "Upload cancelled",
                               progress := none }
    match hook.uploadIdRef with
    | some id =>
        { session := { s1 with hook := { hook with uploadIdRef := none } },
          registry := aborted.registry.erase id,
          emits := aborted.emits ++ [Emit.pub none] }
    | none =>
        { session := { s1 with hook }, registry := aborted.registry,
          emits := aborted.emits ++ [Emit.pub none] }

/-- One transport progress event as delivered to the listener. -/
structure ProgressEv where
  loaded : Nat
  total : Nat
  lengthComputable : Bool
deriving Repr, DecidableEq

/-- Terminal transport outcome of a session: the single load event with its
status and parsed body, a network error, or an explicit cancel call. -/
inductive TerminalEv where
  | load (status : Nat) (body : Option Jsonv) : TerminalEv
  | netError : TerminalEv
  | cancelEv : TerminalEv

/-- Deliver a list of progress events in order, accumulating emits. -/
def runProgress (s : Session) (reg : List Nat) : List ProgressEv → StepOut
  | [] => { session := s, registry := reg, emits := [] }
  | ev :: rest =>
    let o := handleProgress ev.loaded ev.total ev.lengthComputable s reg
    let o2 := runProgress o.session o.registry rest
    { session := o2.session, registry := o2.registry, emits := o.emits ++ o2.emits }

/-- One full upload session driven by the event loop: the synchronous start;
if validation passed, the send after the credential fetch, then the transport
progress events, then the single terminal event. The drive order mirrors the
cooperative scheduling of the source: handlers run to completion and the
terminal event is the last one delivered for the task. -/
def runSession (file : JFile) (id : Nat) (evs : List ProgressEv) (term : TerminalEv) : StepOut :=
  let o0 := uploadStart file id HookState.init []
  if !(validateFile file).valid then o0
  else
    let o1 := sendComplete o0.session o0.registry
    let o2 := runProgress o1.session o1.registry evs
    let o3 :=
      match term with
      | .load status body => handleLoad status body o2.session o2.registry
      | .netError => handleError o2.session o2.registry
      | .cancelEv => cancel o2.session o2.registry
    { session := o3.session, registry := o3.registry,
      emits := o0.emits ++ o1.emits ++ o2.emits ++ o3.emits,
      uncaught := o3.uncaught }

/-- The process-wide picture used by cancelAllActiveUploads: every hook
instance's session, and the key list of the activeUploadCancelFunctions map.
A registry key maps to the cancel closure of the hook that registered it,
recovered here by looking the session up by its uploadId. -/
structure World where
  sessions : List Session
  registry : List Nat

/-- Invoke the registered cancel capability of one registry key: find the
owning session, run its cancel against the current registry, and write the
session back. Emits are tagged with the registry key they were produced for. -/
def cancelOne (w : World) (id : Nat) : World × List (Nat × Emit) :=
  match w.sessions.find? (fun t => t.uploadId = id) with
  | none => (w, [])
  | some s =>
    let o := cancel s w.registry
    ({ sessions := w.sessions.map fun t => if t.uploadId = id then o.session else t,
       registry := o.registry }, o.emits.map fun e => (id, e))

/-- Invoke the cancel capabilities of a list of registry keys in order. -/
def foldCancel (w : World) : List Nat → World × List (Nat × Emit)
  | [] => (w, [])
  | id :: rest =>
    let step := cancelOne w id
    let tail := foldCancel step.1 rest
    (tail.1, step.2 ++ tail.2)

/-- Embedding of cancelAllActiveUploads: forEach over the registry invoking
every registered cancel capability, then clear(). The iteration order is the
snapshot of the key list; each cancel only ever removes its own key, so this
agrees with iterating the live map. -/
def cancelAllActiveUploads (w : World) : World × List (Nat × Emit) :=
  let folded := foldCancel w w.registry
  ({ folded.1 with registry := [] }, folded.2)

/-- File metadata record as read by the duplicate check. -/
structure FileMetadata where
  id : String
  filename : String
  file_size : Nat
deriving Repr, DecidableEq

/-- Embedding of JS `String.prototype.toLowerCase` (ASCII range). -/
def jsToLower (s : String) : String :=
  ⟨s.data.map Char.toLower⟩

/-- Embedding of the mutation function of useCheckDuplicateFilename (App.tsx):
fetch the listing, return the first file whose lowercased name matches, and
catch any fetch failure by returning null, i.e. "no duplicate found". -/
def checkDuplicateFilename (filename : String)
    (listing : Except Unit (List FileMetadata)) : Option FileMetadata :=
  match listing with
  | .error _ => none
  | .ok files => files.find? fun f => jsToLower f.filename = jsToLower filename

/-- What handleFileSelect decides to do with a selected file. -/
inductive SelectAction where
  | rejectedByValidation (msg : String) : SelectAction
  | showDuplicateDialog (existing : FileMetadata) : SelectAction
  | startUpload : SelectAction
deriving Repr, DecidableEq

/-- Embedding of the decision logic of handleFileSelect (FileUpload.tsx):
validate, then branch on the duplicate-check outcome; the catch arm around the
awaited duplicate check proceeds with the upload anyway. (The same catch also
covers the awaited upload call itself, which is outside this decision.) -/
def handleFileSelect (file : JFile)
    (dupResult : Except Unit (Option FileMetadata)) : SelectAction :=
  let validation := validateFile file
  if validation.valid then
    match dupResult with
    | .ok (some existing) => .showDuplicateDialog existing
    | .ok none => .startUpload
    | .error _ => .startUpload
  else
    .rejectedByValidation (jsOrString validation.error "File validation failed")

/-- The progress value a single transport progress event publishes, if any
(an event without computable length publishes nothing). -/
def progVal (name : String) (ev : ProgressEv) : Option FileUploadProgress :=
  if ev.lengthComputable then
    some { filename := name, loaded := ev.loaded, total := ev.total,
           percentage := jsRound100 ev.loaded ev.total, status := .uploading }
  else
    none

/-- A status the source ever assigns to a published progress value. -/
def StatusOk (p : FileUploadProgress) : Prop :=
  p.status = .uploading ∨ p.status = .completed ∨ p.status = .failed

/-- Hook state left behind by a delivered cancellation. -/
def CancelledHook (h : HookState) : Prop :=
  h.error = some "Upload cancelled" ∧ h.uploading = false ∧ h.progress = none

/-- The session value written back by a cancel delivered to an in-flight
request. -/
def cancelledSession (s : Session) : Session :=
  { s with hook := { s.hook with xhrRef := some .settled,
                                 error := some "Upload cancelled",
                                 uploading := false, progress := none,
                                 uploadIdRef := none } }

/-- Well-formedness of a world as the registry invariants of the source
produce it when every registered transfer has been sent: keys are unique,
sessions have distinct ids, and every registered key belongs to a session
whose request is in flight. -/
def WFWorld (w : World) : Prop :=
  w.registry.Nodup ∧
  (w.sessions.map Session.uploadId).Nodup ∧
  ∀ id ∈ w.registry, ∃ s, s ∈ w.sessions ∧ s.uploadId = id ∧
    s.hook.xhrRef = some .inflight

/-- A session-and-registry pair: the state observable between handler runs. -/
def SR : Type := Session × List Nat

/-- View of a step result as an observable state. -/
def StepOut.toSR (o : StepOut) : SR := (o.session, o.registry)

/-- One event-loop step on an observable state: the send resuming after the
credential fetch, a transport event (delivered only while the request is in
flight), or a cancel call, which is possible at any time. -/
inductive SessStep : SR → SR → Prop where
  | send (sr : SR) (h : sr.1.hook.xhrRef = some .unsent) :
      SessStep sr (sendComplete sr.1 sr.2).toSR
  | progressEv (sr : SR) (loaded total : Nat) (lc : Bool)
      (h : sr.1.hook.xhrRef = some .inflight) :
      SessStep sr (handleProgress loaded total lc sr.1 sr.2).toSR
  | loadEv (sr : SR) (status : Nat) (body : Option Jsonv)
      (h : sr.1.hook.xhrRef = some .inflight) :
      SessStep sr (handleLoad status body sr.1 sr.2).toSR
  | errorEv (sr : SR) (h : sr.1.hook.xhrRef = some .inflight) :
      SessStep sr (handleError sr.1 sr.2).toSR
  | cancelCall (sr : SR) :
      SessStep sr (cancel sr.1 sr.2).toSR

/-- States observable during one upload session started on a fresh hook with
an empty registry: the state after the synchronous start, closed under
event-loop steps. -/
def Reach (file : JFile) (id : Nat) (sr : SR) : Prop :=
  Relation.ReflTransGen SessStep (uploadStart file id HookState.init []).toSR sr

/-- Inductive invariant of a single session: its captured id never changes;
the registry is empty or holds exactly the session's key, and then the hook
still names that key and publishes an uploading progress; and every published
progress carries a status the source can assign. -/
def Inv (id : Nat) (sr : SR) : Prop :=
  sr.1.uploadId = id ∧
  (sr.2 = [] ∨ (sr.2 = [id] ∧ sr.1.hook.uploadIdRef = some id ∧
     ∃ p, sr.1.hook.progress = some p ∧ p.status = .uploading)) ∧
  (∀ p, sr.1.hook.progress = some p → StatusOk p)

section Theorems

/-- A file that passes validation has a positive declared size. -/
theorem validateFile_size_pos (file : JFile)
    (h : (validateFile file).valid = true) : 0 < file.size := by
  rcases Nat.eq_zero_or_pos file.size with h0 | h0
  · exfalso
    simp [validateFile, validateFileSize, h0] at h
  · exact h0

/-- Rounded percentage of zero bytes sent. -/
theorem jsRound100_zero (total : Nat) : jsRound100 0 total = 0 := by
  rcases Nat.eq_zero_or_pos total with h | h
  · simp [jsRound100, h]
  · simp only [jsRound100, Nat.mul_zero, Nat.zero_add]
    exact Nat.div_eq_of_lt (by omega)

/-- Rounded percentage of a finished transfer. -/
theorem jsRound100_self (total : Nat) (h : 0 < total) :
    jsRound100 total total = 100 := by
  have h2 : 200 * total + total = total + 2 * total * 100 := by ring
  rw [jsRound100, h2, Nat.add_mul_div_left _ _ (by omega),
    Nat.div_eq_of_lt (by omega)]

/-- Rounded percentage is monotone in the bytes sent. -/
theorem jsRound100_mono {l l' : Nat} (total : Nat) (h : l ≤ l') :
    jsRound100 l total ≤ jsRound100 l' total :=
  Nat.div_le_div_right (by omega)

/-- Rounded percentage never exceeds 100 while bytes sent stay within the
total. -/
theorem jsRound100_le_100 {l total : Nat} (ht : 0 < total) (h : l ≤ total) :
    jsRound100 l total ≤ 100 := by
  calc jsRound100 l total ≤ jsRound100 total total := jsRound100_mono total h
    _ = 100 := jsRound100_self total ht

/-- C6 counterexample: a 256-character filename containing ".." is rejected by
the length check, not the path-traversal check, so the claim that every
".."-containing name fails with PathTraversal is false on the code. -/
theorem traversal_loses_to_length_check :
    validateFile ⟨String.mk (List.replicate 254 'a') ++ "..", 100⟩ =
      { valid := false, error := some nameTooLongMsg } ∧
    strIncludes (String.mk (List.replicate 254 'a') ++ "..") ".." = true ∧
    nameTooLongMsg ≠ pathTraversalMsg := by
  refine ⟨by decide, by decide, by decide⟩

/-- C6 amended: size checks run before name checks, and a name that passes the
emptiness and length checks and contains ".." fails with PathTraversal no
matter which later character or pattern rules it also violates. -/
theorem validate_traversal_precedence :
    (∀ file : JFile, (validateFileSize file).valid = true →
      file.name ≠ "" → jsTrim file.name ≠ "" →
      file.name.length ≤ MAX_FILENAME_LENGTH →
      strIncludes file.name ".." = true →
      validateFile file = { valid := false, error := some pathTraversalMsg }) ∧
    (∀ file : JFile, (validateFileSize file).valid = false →
      validateFile file = validateFileSize file) := by
  constructor
  · intro file hsize hne htrim hlen hdots
    have hlen2 : ¬ file.name.length > MAX_FILENAME_LENGTH := by omega
    simp [validateFile, validateFilename, hsize, hne, htrim, hlen2, hdots]
  · intro file hsize
    simp [validateFile, hsize]

/-- C6 witness: the theorem applied to a short traversal name that also
contains an invalid character, and to an empty file. -/
theorem validate_traversal_precedence_witness :
    ((validateFileSize ⟨"a..<b", 100⟩).valid = true ∧
     strIncludes "a..<b" ".." = true ∧
     hasInvalidFilenameChar "a..<b" = true ∧
     validateFile ⟨"a..<b", 100⟩ = { valid := false, error := some pathTraversalMsg }) ∧
    ((validateFileSize ⟨"x", 0⟩).valid = false ∧
     validateFile ⟨"x", 0⟩ = validateFileSize ⟨"x", 0⟩) := by
  refine ⟨⟨by decide, by decide, by decide, ?_⟩, ⟨by decide, ?_⟩⟩
  · exact validate_traversal_precedence.1 ⟨"a..<b", 100⟩ (by decide) (by decide)
      (by decide) (by decide) (by decide)
  · exact validate_traversal_precedence.2 ⟨"x", 0⟩ (by decide)

/-- C8: an empty file is rejected by validation before any transport exists:
the registry is untouched, no xhr was created, the hook records the EmptyFile
message, upload throws that message, and exactly one terminal callback (the
error callback) fires. -/
theorem empty_file_rejected_before_network (file : JFile) (id : Nat) (reg : List Nat)
    (hsz : file.size = 0) (hid : id ∉ reg) :
    (uploadStart file id HookState.init reg).registry = reg ∧
    (uploadStart file id HookState.init reg).session.hook.xhrRef = none ∧
    (uploadStart file id HookState.init reg).session.hook.error =
      some "Cannot upload empty file" ∧
    (uploadStart file id HookState.init reg).session.hook.uploading = false ∧
    (uploadStart file id HookState.init reg).thrown = some "Cannot upload empty file" ∧
    countCallbacks (uploadStart file id HookState.init reg).emits = 1 := by
  have hv : validateFile file = { valid := false, error := some "Cannot upload empty file" } := by
    simp [validateFile, validateFileSize, hsz]
  simp [uploadStart, hv, jsOrString, HookState.init, List.erase_of_not_mem hid,
    countCallbacks, Emit.isCallback]

/-- C8 witness: the theorem applied to a zero-size file against the empty
registry. -/
theorem empty_file_rejected_before_network_witness :
    (⟨"a.png", 0⟩ : JFile).size = 0 ∧ (1 : Nat) ∉ ([] : List Nat) ∧
    ((uploadStart ⟨"a.png", 0⟩ 1 HookState.init []).registry = [] ∧
     (uploadStart ⟨"a.png", 0⟩ 1 HookState.init []).session.hook.xhrRef = none ∧
     (uploadStart ⟨"a.png", 0⟩ 1 HookState.init []).session.hook.error =
       some "Cannot upload empty file" ∧
     (uploadStart ⟨"a.png", 0⟩ 1 HookState.init []).session.hook.uploading = false ∧
     (uploadStart ⟨"a.png", 0⟩ 1 HookState.init []).thrown = some "Cannot upload empty file" ∧
     countCallbacks (uploadStart ⟨"a.png", 0⟩ 1 HookState.init []).emits = 1) :=
  ⟨rfl, by decide, empty_file_rejected_before_network ⟨"a.png", 0⟩ 1 [] rfl (by decide)⟩

/-- C9: a failed duplicate lookup is fully absorbed: the query-layer catch
turns any listing failure into "no duplicate found", and the caller's catch
around the awaited check proceeds to the transfer exactly as when no
duplicate exists. -/
theorem duplicate_check_failure_absorbed :
    (∀ filename : String, checkDuplicateFilename filename (.error ()) = none) ∧
    (∀ file : JFile, (validateFile file).valid = true →
       handleFileSelect file (.error ()) = .startUpload ∧
       handleFileSelect file (.ok none) = .startUpload) := by
  constructor
  · intro filename
    rfl
  · intro file hv
    exact ⟨by simp [handleFileSelect, hv], by simp [handleFileSelect, hv]⟩

/-- C9 witness: the theorem applied to a valid file. -/
theorem duplicate_check_failure_absorbed_witness :
    checkDuplicateFilename "report.pdf" (.error ()) = none ∧
    ((validateFile ⟨"report.pdf", 100⟩).valid = true ∧
     handleFileSelect ⟨"report.pdf", 100⟩ (.error ()) = .startUpload ∧
     handleFileSelect ⟨"report.pdf", 100⟩ (.ok none) = .startUpload) :=
  ⟨duplicate_check_failure_absorbed.1 "report.pdf",
   by decide,
   (duplicate_check_failure_absorbed.2 ⟨"report.pdf", 100⟩ (by decide)).1,
   (duplicate_check_failure_absorbed.2 ⟨"report.pdf", 100⟩ (by decide)).2⟩

/-- C2: a non-2xx completion with a JSON body extracts the message from the
body (413 with detail "too large" fails with that message; a JSON body
without a detail falls back to the status-derived message), but a non-2xx
completion whose body is not valid JSON throws out of the load handler
before any state is written: the task never reaches failed, no callback
fires, and it stays registered — contradicting the claim for
non-JSON bodies. -/
theorem serverRejected_extraction_and_parse_bug :
    ((runSession ⟨"report.pdf", 100⟩ 1 []
        (.load 413 (some (.jobj [("detail", .jstr "too large")])))).session.hook.error
      = some "too large") ∧
    ((runSession ⟨"report.pdf", 100⟩ 1 []
        (.load 413 (some (.jobj [("detail", .jstr "too large")])))).session.hook.progress
      = some { filename := "report.pdf", loaded := 0, total := 100, percentage := 0,
               status := .failed, error := some "too large" }) ∧
    ((runSession ⟨"report.pdf", 100⟩ 1 [] (.load 404 (some (.jobj [])))).session.hook.error
      = some "Upload failed with status 404") ∧
    ((runSession ⟨"report.pdf", 100⟩ 1 [] (.load 500 none)).uncaught = true) ∧
    ((runSession ⟨"report.pdf", 100⟩ 1 [] (.load 500 none)).session.hook.error = none) ∧
    ((runSession ⟨"report.pdf", 100⟩ 1 [] (.load 500 none)).session.hook.progress =
      some (initialProgress ⟨"report.pdf", 100⟩)) ∧
    (countCallbacks (runSession ⟨"report.pdf", 100⟩ 1 [] (.load 500 none)).emits = 0) := by
  refine ⟨by decide, by decide, by decide, by decide, by decide, by decide, by decide⟩

/-- C1: on the path where the server rejects with a non-JSON body, neither
callback fires at all (and the handler dies with an uncaught exception,
leaving the task registered and the uploading flag set), so the
exactly-once callback guarantee is broken by the code on this path. -/
theorem callback_lost_on_unparseable_rejection :
    countCallbacks (runSession ⟨"report.pdf", 100⟩ 1 [] (.load 500 none)).emits = 0 ∧
    (runSession ⟨"report.pdf", 100⟩ 1 [] (.load 500 none)).uncaught = true ∧
    (runSession ⟨"report.pdf", 100⟩ 1 [] (.load 500 none)).registry = [1] ∧
    (runSession ⟨"report.pdf", 100⟩ 1 [] (.load 500 none)).session.hook.uploading = true := by
  refine ⟨by decide, by decide, by decide, by decide⟩

/-- C3 counterexample: after a completed transfer the transport handle is not
cleared, so invoking cancel is not a no-op: published progress is cleared and
the error cell is set to "Upload cancelled", although the registry is
unchanged. -/
theorem cancel_after_completion_changes_state :
    (let done := runSession ⟨"report.pdf", 100⟩ 1 [] (.load 200 (some (.jobj [])));
     let c := cancel done.session done.registry;
     done.session.hook.error = none ∧
     done.session.hook.progress = some (completedProgress ⟨"report.pdf", 100⟩) ∧
     c.session.hook.error = some "Upload cancelled" ∧
     c.session.hook.progress = none ∧
     c.registry = done.registry ∧ c.registry = []) := by
  refine ⟨by decide, by decide, by decide, by decide, by decide, by decide⟩

/-- C3 amended: cancel never raises, never touches the registry of a task
already deregistered, is a full no-op when no transport handle exists, and
applying it twice equals applying it once with no callback from the second
call; it is not, however, a no-op on the published state after a terminal
transfer. -/
theorem cancel_idempotent_and_registry_safe :
    (∀ (s : Session) (reg : List Nat), s.hook.xhrRef = none →
       cancel s reg = { session := s, registry := reg, emits := [] }) ∧
    (∀ (s : Session) (reg : List Nat), s.hook.uploadIdRef = none → s.uploadId ∉ reg →
       (cancel s reg).registry = reg) ∧
    (∀ (s : Session) (reg : List Nat),
       (cancel (cancel s reg).session (cancel s reg).registry).session =
         (cancel s reg).session ∧
       (cancel (cancel s reg).session (cancel s reg).registry).registry =
         (cancel s reg).registry ∧
       countCallbacks (cancel (cancel s reg).session (cancel s reg).registry).emits = 0) ∧
    (∀ (s : Session) (reg : List Nat),
       (cancel s reg).uncaught = false ∧ (cancel s reg).thrown = none) := by
  refine ⟨?_, ?_, ?_, ?_⟩
  · intro s reg h
    simp [cancel, h]
  · intro s reg h hmem
    rcases hx : s.hook.xhrRef with _ | ph
    · simp [cancel, hx]
    · rcases ph <;>
        simp [cancel, handleAbort, hx, h, List.erase_of_not_mem hmem]
  · intro s reg
    rcases hx : s.hook.xhrRef with _ | ph
    · simp [cancel, hx, countCallbacks]
    · rcases ph <;> rcases hu : s.hook.uploadIdRef with _ | i <;>
        simp [cancel, handleAbort, hx, hu, countCallbacks, Emit.isCallback]
  · intro s reg
    rcases hx : s.hook.xhrRef with _ | ph
    · simp [cancel, hx]
    · rcases ph <;> rcases hu : s.hook.uploadIdRef with _ | i <;>
        simp [cancel, handleAbort, hx, hu]

/-- C3 witness: the theorem applied to a fresh hook with no transport handle
and to a deregistered session against a registry of another task. -/
theorem cancel_idempotent_and_registry_safe_witness :
    (⟨⟨"a.png", 3⟩, 7, HookState.init⟩ : Session).hook.xhrRef = none ∧
    cancel ⟨⟨"a.png", 3⟩, 7, HookState.init⟩ [] =
      { session := ⟨⟨"a.png", 3⟩, 7, HookState.init⟩, registry := [], emits := [] } ∧
    (⟨⟨"a.png", 3⟩, 7, HookState.init⟩ : Session).hook.uploadIdRef = none ∧
    (cancel ⟨⟨"a.png", 3⟩, 7, HookState.init⟩ [5]).registry = [5] ∧
    countCallbacks (cancel (cancel ⟨⟨"a.png", 3⟩, 7, HookState.init⟩ []).session
        (cancel ⟨⟨"a.png", 3⟩, 7, HookState.init⟩ []).registry).emits = 0 :=
  ⟨rfl,
   cancel_idempotent_and_registry_safe.1 ⟨⟨"a.png", 3⟩, 7, HookState.init⟩ [] rfl,
   rfl,
   cancel_idempotent_and_registry_safe.2.1 ⟨⟨"a.png", 3⟩, 7, HookState.init⟩ [5] rfl
     (by decide),
   (cancel_idempotent_and_registry_safe.2.2.1 ⟨⟨"a.png", 3⟩, 7, HookState.init⟩ []).2.2⟩

/-- Value of the synchronous start of upload on a file that passes
validation: initial progress published, cancel capability registered, request
created but not yet sent. -/
theorem uploadStart_valid (file : JFile) (id : Nat)
    (hv : (validateFile file).valid = true) :
    uploadStart file id HookState.init [] =
      { session := ⟨file, id, { progress := some (initialProgress file), uploading := true,
                                error := none, xhrRef := some XhrPhase.unsent,
                                uploadIdRef := some id }⟩,
        registry := [id],
        emits := [Emit.pub (some (initialProgress file))] } := by
  simp [uploadStart, hv, regSet, HookState.init]

/-- Value of the load handler on a 2xx completion with a parseable body. -/
theorem handleLoad_success (status : Nat) (body : Jsonv) (s : Session) (reg : List Nat)
    (hst : 200 ≤ status ∧ status < 300) :
    handleLoad status (some body) s reg =
      { session :=
          { s with hook :=
              { s.hook with
                xhrRef := some XhrPhase.settled,
                progress := some (completedProgress s.file),
                uploading := false,
                uploadIdRef := none } },
        registry := reg.erase s.uploadId,
        emits := [Emit.pub (some (completedProgress s.file)), Emit.cbSuccess body] } := by
  simp [handleLoad, hst]

/-- Progress delivery does not touch the registry. -/
theorem runProgress_registry (evs : List ProgressEv) :
    ∀ (s : Session) (reg : List Nat), (runProgress s reg evs).registry = reg := by
  induction evs with
  | nil => intro s reg; rfl
  | cons ev rest ih =>
    intro s reg
    by_cases h : ev.lengthComputable <;> simp [runProgress, handleProgress, h, ih]

/-- Progress delivery only rewrites the published progress cell: every other
session component is preserved. -/
theorem runProgress_preserved (evs : List ProgressEv) :
    ∀ (s : Session) (reg : List Nat),
      (runProgress s reg evs).session.file = s.file ∧
      (runProgress s reg evs).session.uploadId = s.uploadId ∧
      (runProgress s reg evs).session.hook.xhrRef = s.hook.xhrRef ∧
      (runProgress s reg evs).session.hook.uploadIdRef = s.hook.uploadIdRef ∧
      (runProgress s reg evs).session.hook.uploading = s.hook.uploading ∧
      (runProgress s reg evs).session.hook.error = s.hook.error := by
  induction evs with
  | nil => intro s reg; exact ⟨rfl, rfl, rfl, rfl, rfl, rfl⟩
  | cons ev rest ih =>
    intro s reg
    by_cases h : ev.lengthComputable <;> simp [runProgress, handleProgress, h, ih]

/-- Publications distribute over concatenation of emits. -/
theorem pubList_append (a b : List Emit) :
    pubList (a ++ b) = pubList a ++ pubList b :=
  List.filterMap_append a b _

/-- Publications of the empty emit list. -/
theorem pubList_nil : pubList [] = [] := rfl

/-- A setProgress emit heads its own publication list. -/
theorem pubList_cons_pub (p : Option FileUploadProgress) (es : List Emit) :
    pubList (.pub p :: es) = p :: pubList es := rfl

/-- A progress callback emit publishes nothing. -/
theorem pubList_cons_cbProgress (p : FileUploadProgress) (es : List Emit) :
    pubList (.cbProgress p :: es) = pubList es := rfl

/-- A success callback emit publishes nothing. -/
theorem pubList_cons_cbSuccess (p : Jsonv) (es : List Emit) :
    pubList (.cbSuccess p :: es) = pubList es := rfl

/-- An error callback emit publishes nothing. -/
theorem pubList_cons_cbError (m : String) (es : List Emit) :
    pubList (.cbError m :: es) = pubList es := rfl

/-- The publications of a run of progress events are exactly the values of
the events with computable length, in order. -/
theorem runProgress_pubs (evs : List ProgressEv) :
    ∀ (s : Session) (reg : List Nat),
      pubList (runProgress s reg evs).emits =
        (evs.filterMap (progVal s.file.name)).map some := by
  induction evs with
  | nil => intro s reg; rfl
  | cons ev rest ih =>
    intro s reg
    by_cases h : ev.lengthComputable <;>
      simp [runProgress, handleProgress, h, pubList_append, pubList_nil,
        pubList_cons_pub, pubList_cons_cbProgress, List.filterMap_cons, ih, progVal]

/-- The values published by computable-length progress events, as a map over
the filtered event list. -/
theorem filterMap_progVal_eq (name : String) (evs : List ProgressEv) :
    evs.filterMap (progVal name) =
      (evs.filter (fun ev => ev.lengthComputable)).map
        (fun ev => ({ filename := name, loaded := ev.loaded, total := ev.total,
                      percentage := jsRound100 ev.loaded ev.total,
                      status := .uploading } : FileUploadProgress)) := by
  induction evs with
  | nil => rfl
  | cons ev rest ih =>
    by_cases h : ev.lengthComputable <;>
      simp [progVal, h, List.filter_cons, List.filterMap_cons, ih]

/-- C7: on a successful transfer the published progress stream is exactly the
initial value, the computable-length transport events, and the terminal
completed value; its percentages are non-decreasing, every element carries the
rounded loaded/total ratio, the terminal event is last, and exactly one
element is the percentage-100 completed event. The transport hypotheses are
the ordering guarantees of the spec: events arrive in non-decreasing byte
order, within the fixed declared total. -/
theorem success_progress_stream (file : JFile) (id : Nat) (evs : List ProgressEv)
    (status : Nat) (body : Jsonv)
    (hv : (validateFile file).valid = true)
    (hst : 200 ≤ status ∧ status < 300)
    (htot : ∀ ev ∈ evs, ev.total = file.size)
    (hle : ∀ ev ∈ evs, ev.loaded ≤ ev.total)
    (hsort : List.Pairwise (fun a b => a ≤ b) (evs.map ProgressEv.loaded)) :
    pubList (runSession file id evs (.load status (some body))).emits =
      (initialProgress file ::
        (evs.filterMap (progVal file.name) ++ [completedProgress file])).map some ∧
    List.Pairwise (fun a b => a ≤ b)
      ((initialProgress file ::
        (evs.filterMap (progVal file.name) ++ [completedProgress file])).map
          FileUploadProgress.percentage) ∧
    (∀ p ∈ initialProgress file ::
        (evs.filterMap (progVal file.name) ++ [completedProgress file]),
      p.percentage = jsRound100 p.loaded p.total) ∧
    (initialProgress file ::
      (evs.filterMap (progVal file.name) ++ [completedProgress file])).getLast? =
        some (completedProgress file) ∧
    ((initialProgress file ::
      (evs.filterMap (progVal file.name) ++ [completedProgress file])).filter
        (fun p => p.status = UploadStatus.completed)).length = 1 ∧
    (completedProgress file).percentage = 100 ∧
    (completedProgress file).status = UploadStatus.completed := by
  have hsize : 0 < file.size := validateFile_size_pos file hv
  refine ⟨?_, ?_, ?_, ?_, ?_, rfl, rfl⟩
  · -- the run publishes exactly this stream
    simp only [runSession, hv, Bool.not_true, Bool.false_eq_true, if_false]
    rw [uploadStart_valid file id hv]
    simp [sendComplete, handleLoad, hst, runProgress_registry, runProgress_pubs,
      runProgress_preserved, pubList_append, pubList_cons_pub, pubList_nil,
      pubList_cons_cbSuccess]
  · -- percentages are non-decreasing
    have hmid : List.Pairwise (fun a b => a ≤ b)
        ((evs.filterMap (progVal file.name)).map FileUploadProgress.percentage) := by
      rw [filterMap_progVal_eq, List.map_map]
      have hsub : List.Sublist
          ((evs.filter (fun ev => ev.lengthComputable)).map ProgressEv.loaded)
          (evs.map ProgressEv.loaded) :=
        (List.filter_sublist evs).map ProgressEv.loaded
      have h1 : List.Pairwise (fun a b => a ≤ b)
          ((evs.filter (fun ev => ev.lengthComputable)).map ProgressEv.loaded) :=
        hsort.sublist hsub
      have h2 : List.Pairwise (fun a b : ProgressEv => a.loaded ≤ b.loaded)
          (evs.filter (fun ev => ev.lengthComputable)) := List.pairwise_map.mp h1
      have h3 : List.Pairwise (fun a b : ProgressEv =>
          jsRound100 a.loaded a.total ≤ jsRound100 b.loaded b.total)
          (evs.filter (fun ev => ev.lengthComputable)) := by
        refine List.Pairwise.imp_of_mem ?_ h2
        intro a b ha hb hab
        rw [htot a (List.mem_of_mem_filter ha), htot b (List.mem_of_mem_filter hb)]
        exact jsRound100_mono _ hab
      exact List.pairwise_map.mpr h3
    rw [List.map_cons, List.map_append]
    refine List.pairwise_cons.mpr ⟨?_, ?_⟩
    · intro b _
      simp [initialProgress]
    · refine List.pairwise_append.mpr ⟨hmid, List.pairwise_singleton _ _, ?_⟩
      intro a ha b hb
      rw [List.map_singleton, List.mem_singleton] at hb
      subst hb
      rw [filterMap_progVal_eq, List.map_map] at ha
      obtain ⟨ev, hev, rfl⟩ := List.mem_map.mp ha
      have hev2 := List.mem_of_mem_filter hev
      show jsRound100 ev.loaded ev.total ≤ (completedProgress file).percentage
      have := hle ev hev2
      rw [htot ev hev2] at this ⊢
      exact jsRound100_le_100 hsize this
  · -- every element carries the rounded ratio
    intro p hp
    rcases List.mem_cons.mp hp with rfl | hp2
    · simp [initialProgress, jsRound100_zero]
    · rcases List.mem_append.mp hp2 with hm | hl
      · rw [filterMap_progVal_eq] at hm
        obtain ⟨ev, hev, rfl⟩ := List.mem_map.mp hm
        rfl
      · rw [List.mem_singleton] at hl
        subst hl
        simp [completedProgress, jsRound100_self _ hsize]
  · -- the terminal value is last
    rw [show initialProgress file ::
        (evs.filterMap (progVal file.name) ++ [completedProgress file]) =
        (initialProgress file :: evs.filterMap (progVal file.name)) ++
          [completedProgress file] from rfl]
    exact List.getLast?_concat _
  · -- exactly one completed element
    have hmidfilter : (evs.filterMap (progVal file.name)).filter
        (fun p => p.status = UploadStatus.completed) = [] := by
      rw [filterMap_progVal_eq]
      rw [List.filter_eq_nil_iff]
      intro p hp
      obtain ⟨ev, hev, rfl⟩ := List.mem_map.mp hp
      simp
    simp [List.filter_cons, List.filter_append, hmidfilter, initialProgress,
      completedProgress]

/-- C7 witness: the theorem applied to a two-event transfer of a 100-byte
file completing with status 200. -/
theorem success_progress_stream_witness :
    (validateFile ⟨"report.pdf", 100⟩).valid = true ∧
    List.Pairwise (fun a b => a ≤ b)
      (([⟨50, 100, true⟩, ⟨100, 100, true⟩] : List ProgressEv).map ProgressEv.loaded) ∧
    pubList (runSession ⟨"report.pdf", 100⟩ 1 [⟨50, 100, true⟩, ⟨100, 100, true⟩]
        (.load 200 (some (.jobj [])))).emits =
      (initialProgress ⟨"report.pdf", 100⟩ ::
        (([⟨50, 100, true⟩, ⟨100, 100, true⟩] : List ProgressEv).filterMap
            (progVal "report.pdf") ++ [completedProgress ⟨"report.pdf", 100⟩])).map some :=
  ⟨by decide, by decide,
   (success_progress_stream ⟨"report.pdf", 100⟩ 1 [⟨50, 100, true⟩, ⟨100, 100, true⟩] 200
      (.jobj []) (by decide) (by decide) (by decide) (by decide) (by decide)).1⟩

/-- Value of the synchronous start of upload on a file that fails validation:
initial progress published and left in place, error recorded and thrown, no
transport, registry untouched apart from the no-op delete of the fresh key. -/
theorem uploadStart_invalid (file : JFile) (id : Nat) (hook : HookState) (reg : List Nat)
    (hv : (validateFile file).valid = false) :
    uploadStart file id hook reg =
      { session := ⟨file, id,
          { hook with
              uploadIdRef := none,
              uploading := false,
              error := some (jsOrString (validateFile file).error "File validation failed"),
              progress := some (initialProgress file) }⟩,
        registry := reg.erase id,
        emits := [Emit.pub (some (initialProgress file)),
          Emit.cbError (jsOrString (validateFile file).error "File validation failed")],
        thrown := some (jsOrString (validateFile file).error "File validation failed") } := by
  simp [uploadStart, hv]

/-- The session invariant holds right after the synchronous start of upload. -/
theorem Inv_base (file : JFile) (id : Nat) :
    Inv id (uploadStart file id HookState.init []).toSR := by
  cases hv : (validateFile file).valid with
  | false =>
    rw [uploadStart_invalid file id HookState.init [] hv]
    refine ⟨rfl, Or.inl (List.erase_nil id), ?_⟩
    intro p hp
    have hp2 : initialProgress file = p := by simpa [StepOut.toSR] using hp
    rw [← hp2]
    exact Or.inl rfl
  | true =>
    rw [uploadStart_valid file id hv]
    refine ⟨rfl, Or.inr ⟨rfl, rfl, initialProgress file, rfl, rfl⟩, ?_⟩
    intro p hp
    have hp2 : initialProgress file = p := by simpa [StepOut.toSR] using hp
    rw [← hp2]
    exact Or.inl rfl

/-- Value of cancel against an in-flight request: the abort event is
delivered synchronously, then the body repeats the terminal writes. -/
theorem cancel_inflight_eq (s : Session) (reg : List Nat)
    (hx : s.hook.xhrRef = some XhrPhase.inflight) :
    cancel s reg =
      { session := cancelledSession s,
        registry := reg.erase s.uploadId,
        emits := [Emit.pub none, Emit.cbError "Upload cancelled", Emit.pub none] } := by
  simp [cancel, handleAbort, hx, cancelledSession]

/-- Value of cancel against an unsent or settled request while the hook still
names an upload id: no event fires, the body writes the cancelled state and
deregisters that id. -/
theorem cancel_quiet_someId_eq (s : Session) (reg : List Nat) (ph : XhrPhase) (i : Nat)
    (hx : s.hook.xhrRef = some ph) (hph : ph ≠ XhrPhase.inflight)
    (hu : s.hook.uploadIdRef = some i) :
    cancel s reg =
      { session := { s with hook :=
          { s.hook with
              uploading := false,
              error := some "Upload cancelled",
              progress := none,
              uploadIdRef := none } },
        registry := reg.erase i,
        emits := [Emit.pub none] } := by
  simp [cancel, hx, hph, hu]

/-- Value of cancel against an unsent or settled request when the hook no
longer names an upload id: no event fires and the registry is untouched. -/
theorem cancel_quiet_noId_eq (s : Session) (reg : List Nat) (ph : XhrPhase)
    (hx : s.hook.xhrRef = some ph) (hph : ph ≠ XhrPhase.inflight)
    (hu : s.hook.uploadIdRef = none) :
    cancel s reg =
      { session := { s with hook :=
          { s.hook with
              uploading := false,
              error := some "Upload cancelled",
              progress := none } },
        registry := reg,
        emits := [Emit.pub none] } := by
  simp [cancel, hx, hph, hu]

/-- One event-loop step preserves the session invariant. -/
theorem Inv_step {sr sr2 : SR} (id : Nat) (h : Inv id sr) (hs : SessStep sr sr2) :
    Inv id sr2 := by
  obtain ⟨hid, hreg, hstat⟩ := h
  have heraseNil : sr.2.erase id = [] := by
    rcases hreg with hr | ⟨hr, _⟩ <;> simp [hr]
  cases hs with
  | send hx =>
    have e : (sendComplete sr.1 sr.2).toSR =
        ({ sr.1 with hook := { sr.1.hook with xhrRef := some XhrPhase.inflight } }, sr.2) := by
      simp [sendComplete, hx, StepOut.toSR]
    rw [e]
    exact ⟨hid, hreg, hstat⟩
  | progressEv loaded total lc hx =>
    by_cases hlc : lc = true
    · have e : (handleProgress loaded total lc sr.1 sr.2).toSR =
          ({ sr.1 with
              hook :=
                { sr.1.hook with
                    progress :=
                      some { filename := sr.1.file.name, loaded := loaded, total := total,
                             percentage := jsRound100 loaded total,
                             status := .uploading } } }, sr.2) := by
        simp [handleProgress, hlc, StepOut.toSR]
      rw [e]
      refine ⟨hid, ?_, ?_⟩
      · rcases hreg with hr | ⟨h1, h2, _⟩
        · exact Or.inl hr
        · exact Or.inr ⟨h1, h2, _, rfl, rfl⟩
      · intro p hp
        cases Option.some.inj hp
        exact Or.inl rfl
    · have hlc2 : lc = false := by simpa using hlc
      have e : (handleProgress loaded total lc sr.1 sr.2).toSR = (sr.1, sr.2) := by
        simp [handleProgress, hlc2, StepOut.toSR]
      rw [e]
      exact ⟨hid, hreg, hstat⟩
  | loadEv status body hx =>
    by_cases h2 : 200 ≤ status ∧ status < 300
    · cases body with
      | some payload =>
        rw [handleLoad_success status payload sr.1 sr.2 h2]
        refine ⟨hid, Or.inl ?_, ?_⟩
        · show sr.2.erase sr.1.uploadId = []
          rw [hid]
          exact heraseNil
        · intro p hp
          cases Option.some.inj hp
          exact Or.inr (Or.inl rfl)
      | none =>
        have e : (handleLoad status none sr.1 sr.2).toSR =
            ({ sr.1 with
                hook :=
                  { sr.1.hook with
                      xhrRef := some XhrPhase.settled,
                      error := some "Failed to parse server response",
                      uploading := false,
                      progress :=
                        some { filename := sr.1.file.name,
                               loaded := sr.1.file.size,
                               total := sr.1.file.size,
                               percentage := 100,
                               status := .failed,
                               error := some "Failed to parse server response" },
                      uploadIdRef := none } }, sr.2.erase sr.1.uploadId) := by
          simp [handleLoad, h2, StepOut.toSR]
        rw [e]
        refine ⟨hid, Or.inl ?_, ?_⟩
        · show sr.2.erase sr.1.uploadId = []
          rw [hid]
          exact heraseNil
        · intro p hp
          cases Option.some.inj hp
          exact Or.inr (Or.inr rfl)
    · cases body with
      | none =>
        have e : (handleLoad status none sr.1 sr.2).toSR =
            ({ sr.1 with
                hook := { sr.1.hook with xhrRef := some XhrPhase.settled } }, sr.2) := by
          simp [handleLoad, h2, StepOut.toSR]
        rw [e]
        exact ⟨hid, hreg, hstat⟩
      | some b =>
        have e : (handleLoad status (some b) sr.1 sr.2).toSR =
            ({ sr.1 with
                hook :=
                  { sr.1.hook with
                      xhrRef := some XhrPhase.settled,
                      error := some (extractErrorMsg b
                        ("Upload failed with status " ++ toString status)),
                      uploading := false,
                      progress :=
                        some { filename := sr.1.file.name,
                               loaded := 0,
                               total := sr.1.file.size,
                               percentage := 0,
                               status := .failed,
                               error := some (extractErrorMsg b
                                 ("Upload failed with status " ++ toString status)) },
                      uploadIdRef := none } }, sr.2.erase sr.1.uploadId) := by
          simp [handleLoad, h2, StepOut.toSR]
        rw [e]
        refine ⟨hid, Or.inl ?_, ?_⟩
        · show sr.2.erase sr.1.uploadId = []
          rw [hid]
          exact heraseNil
        · intro p hp
          cases Option.some.inj hp
          exact Or.inr (Or.inr rfl)
  | errorEv hx =>
    refine ⟨hid, Or.inl ?_, ?_⟩
    · show sr.2.erase sr.1.uploadId = []
      rw [hid]
      exact heraseNil
    · intro p hp
      cases Option.some.inj hp
      exact Or.inr (Or.inr rfl)
  | cancelCall =>
    rcases hx : sr.1.hook.xhrRef with _ | ph
    · have e : (cancel sr.1 sr.2).toSR = (sr.1, sr.2) := by
        simp [cancel, hx, StepOut.toSR]
      rw [e]
      exact ⟨hid, hreg, hstat⟩
    · by_cases hph : ph = XhrPhase.inflight
      · subst hph
        rw [cancel_inflight_eq sr.1 sr.2 hx]
        refine ⟨hid, Or.inl ?_, ?_⟩
        · show sr.2.erase sr.1.uploadId = []
          rw [hid]
          exact heraseNil
        · intro p hp
          exact absurd hp (by simp [cancelledSession, StepOut.toSR])
      · rcases hu : sr.1.hook.uploadIdRef with _ | i
        · rw [cancel_quiet_noId_eq sr.1 sr.2 ph hx hph hu]
          refine ⟨hid, Or.inl ?_, ?_⟩
          · rcases hreg with hr | ⟨_, h2, _⟩
            · exact hr
            · rw [hu] at h2
              exact absurd h2 (by simp)
          · intro p hp
            exact absurd hp (by simp [StepOut.toSR])
        · rw [cancel_quiet_someId_eq sr.1 sr.2 ph i hx hph hu]
          refine ⟨hid, Or.inl ?_, ?_⟩
          · rcases hreg with hr | ⟨h1, h2, _⟩
            · show sr.2.erase i = []
              simp [hr]
            · show sr.2.erase i = []
              rw [hu] at h2
              cases Option.some.inj h2
              rw [h1]
              simp
          · intro p hp
            exact absurd hp (by simp [StepOut.toSR])

/-- Every reachable observable state satisfies the session invariant. -/
theorem reach_Inv (file : JFile) (id : Nat) (sr : SR) (h : Reach file id sr) :
    Inv id sr := by
  induction h with
  | refl => exact Inv_base file id
  | tail _ hstep ih => exact Inv_step id ih hstep

/-- C5 counterexample: after a validation failure the initial uploading
progress is still published while the task was never registered, so at that
observable (reachable) state the published status is uploading but the id is
absent from the registry, refuting the claimed equivalence. -/
theorem status_uploading_but_unregistered :
    Reach ⟨"a..b.png", 5⟩ 1 (uploadStart ⟨"a..b.png", 5⟩ 1 HookState.init []).toSR ∧
    (uploadStart ⟨"a..b.png", 5⟩ 1 HookState.init []).registry = [] ∧
    (uploadStart ⟨"a..b.png", 5⟩ 1 HookState.init []).session.hook.progress =
      some (initialProgress ⟨"a..b.png", 5⟩) ∧
    (initialProgress ⟨"a..b.png", 5⟩).status = UploadStatus.uploading :=
  ⟨Relation.ReflTransGen.refl, by decide, by decide, rfl⟩

/-- C5 amended: the forward direction of the claimed equivalence holds at
every reachable observable state: a registered task's published status is
uploading, hence a completed or failed task is never registered; the converse
direction fails (see the counterexample). -/
theorem registered_implies_uploading (file : JFile) (id : Nat) (sr : SR)
    (h : Reach file id sr) (hne : sr.2 ≠ []) :
    ∃ p, sr.1.hook.progress = some p ∧ p.status = UploadStatus.uploading := by
  obtain ⟨-, hreg, -⟩ := reach_Inv file id sr h
  rcases hreg with hr | ⟨-, -, p, h3, h4⟩
  · exact absurd hr hne
  · exact ⟨p, h3, h4⟩

/-- C5 witness: the theorem applied to the state right after a valid upload
registered itself. -/
theorem registered_implies_uploading_witness :
    (uploadStart ⟨"report.pdf", 100⟩ 1 HookState.init []).toSR.2 ≠ [] ∧
    ∃ p, (uploadStart ⟨"report.pdf", 100⟩ 1 HookState.init []).toSR.1.hook.progress =
      some p ∧ p.status = UploadStatus.uploading :=
  ⟨by decide,
   registered_implies_uploading ⟨"report.pdf", 100⟩ 1 _ Relation.ReflTransGen.refl
     (by decide)⟩

/-- C10: the statuses queued and processing are never assigned: every
published progress at every reachable state has status uploading, completed
or failed; every upload publishes the initial uploading progress at
percentage zero as its first output, before validation is consulted; and a
validation failure leaves that value in place. -/
theorem queued_processing_never_assigned :
    (∀ (file : JFile) (id : Nat) (sr : SR), Reach file id sr →
       ∀ p, sr.1.hook.progress = some p → StatusOk p) ∧
    (∀ (file : JFile) (id : Nat) (hook : HookState) (reg : List Nat),
       (uploadStart file id hook reg).emits.head? =
         some (Emit.pub (some (initialProgress file))) ∧
       (initialProgress file).status = UploadStatus.uploading ∧
       (initialProgress file).percentage = 0) ∧
    (∀ (file : JFile) (id : Nat) (hook : HookState) (reg : List Nat),
       (validateFile file).valid = false →
       (uploadStart file id hook reg).session.hook.progress =
         some (initialProgress file) ∧
       (uploadStart file id hook reg).session.hook.uploading = false) := by
  refine ⟨?_, ?_, ?_⟩
  · intro file id sr h p hp
    exact (reach_Inv file id sr h).2.2 p hp
  · intro file id hook reg
    refine ⟨?_, rfl, rfl⟩
    by_cases hv : (validateFile file).valid = true
    · simp [uploadStart, hv]
    · have hv2 : (validateFile file).valid = false := by simpa using hv
      simp [uploadStart, hv2]
  · intro file id hook reg hv
    rw [uploadStart_invalid file id hook reg hv]
    exact ⟨rfl, rfl⟩

/-- C10 witness: the theorem applied to a reachable state of a valid upload,
to the synchronous start, and to a file whose name fails validation. -/
theorem queued_processing_never_assigned_witness :
    ((uploadStart ⟨"report.pdf", 100⟩ 1 HookState.init []).toSR.1.hook.progress =
      some (initialProgress ⟨"report.pdf", 100⟩) ∧
     StatusOk (initialProgress ⟨"report.pdf", 100⟩)) ∧
    (uploadStart ⟨"a..b.png", 5⟩ 2 HookState.init []).emits.head? =
      some (Emit.pub (some (initialProgress ⟨"a..b.png", 5⟩))) ∧
    ((validateFile ⟨"a..b.png", 5⟩).valid = false ∧
     (uploadStart ⟨"a..b.png", 5⟩ 2 HookState.init []).session.hook.progress =
       some (initialProgress ⟨"a..b.png", 5⟩)) :=
  ⟨⟨by decide,
    queued_processing_never_assigned.1 ⟨"report.pdf", 100⟩ 1 _
      Relation.ReflTransGen.refl (initialProgress ⟨"report.pdf", 100⟩) (by decide)⟩,
   (queued_processing_never_assigned.2.1 ⟨"a..b.png", 5⟩ 2 HookState.init []).1,
   by decide,
   (queued_processing_never_assigned.2.2 ⟨"a..b.png", 5⟩ 2 HookState.init []
     (by decide)).1⟩

/-- C4 counterexample: cancelAll against a task registered while its upload
is still awaiting the credential fetch (request created but not sent) clears
the registry but aborts nothing: no error callback fires for the task, and
when the send then resumes the transfer proceeds to a successful completion —
the task reaches completed, never failed(Cancelled). -/
theorem cancelAll_unsent_window_counterexample :
    (let o0 := uploadStart ⟨"report.pdf", 100⟩ 1 HookState.init [];
     let w : World := ⟨[o0.session], o0.registry⟩;
     let ca := cancelAllActiveUploads w;
     let s1 := ca.1.sessions.headD o0.session;
     let o2 := sendComplete s1 ca.1.registry;
     let o3 := handleLoad 200 (some (.jobj [])) o2.session o2.registry;
     o0.session.hook.xhrRef = some XhrPhase.unsent ∧
     w.registry = [1] ∧
     ca.1.registry = [] ∧
     (ca.2.filter (fun pe => pe.2.isCallback)).length = 0 ∧
     s1.hook.error = some "Upload cancelled" ∧
     (o3.emits.filter Emit.isSuccessCb).length = 1 ∧
     o3.session.hook.progress = some (completedProgress ⟨"report.pdf", 100⟩)) := by
  decide

/-- The first session of the list carrying a given id is found by find? when
session ids are distinct. -/
theorem find_session_of_mem {l : List Session} {id : Nat}
    (hnd : (l.map Session.uploadId).Nodup)
    {s : Session} (hs : s ∈ l) (hsid : s.uploadId = id) :
    l.find? (fun t => t.uploadId = id) = some s := by
  induction l with
  | nil => cases hs
  | cons a rest ih =>
    rw [List.map_cons, List.nodup_cons] at hnd
    by_cases ha : a.uploadId = id
    · rw [List.find?_cons_of_pos _ (by simpa using ha)]
      rcases List.mem_cons.mp hs with rfl | hs2
      · rfl
      · exfalso
        apply hnd.1
        rw [ha, ← hsid]
        exact List.mem_map_of_mem Session.uploadId hs2
    · rw [List.find?_cons_of_neg _ (by simpa using ha)]
      rcases List.mem_cons.mp hs with rfl | hs2
      · exact absurd hsid ha
      · exact ih hnd.2 hs2

/-- A session with a different id survives the write-back map unchanged. -/
theorem upd_mem_of_ne {l : List Session} {id : Nat} {s' t : Session}
    (ht : t ∈ l) (hne : t.uploadId ≠ id) :
    t ∈ l.map (fun u => if u.uploadId = id then s' else u) := by
  have h := List.mem_map_of_mem (fun u => if u.uploadId = id then s' else u) ht
  simpa [hne] using h

/-- The written-back session is a member of the write-back map. -/
theorem upd_self_mem {l : List Session} {id : Nat} {s s' : Session}
    (hs : s ∈ l) (hsid : s.uploadId = id) :
    s' ∈ l.map (fun u => if u.uploadId = id then s' else u) := by
  have h := List.mem_map_of_mem (fun u => if u.uploadId = id then s' else u) hs
  simpa [hsid] using h

/-- The write-back map does not change the session id listing when the new
session carries the replaced id. -/
theorem upd_map_uploadId (l : List Session) (id : Nat) (s' : Session)
    (hsid : s'.uploadId = id) :
    (l.map (fun u => if u.uploadId = id then s' else u)).map Session.uploadId =
      l.map Session.uploadId := by
  rw [List.map_map]
  apply List.map_congr_left
  intro u hu
  by_cases h : u.uploadId = id <;> simp [Function.comp, h, hsid]

/-- Value of invoking the registered cancel capability of an in-flight
session found in the world. -/
theorem cancelOne_found (w : World) (id : Nat) (s : Session)
    (hfind : w.sessions.find? (fun t => t.uploadId = id) = some s)
    (hx : s.hook.xhrRef = some XhrPhase.inflight) :
    cancelOne w id =
      ({ sessions := w.sessions.map fun t => if t.uploadId = id then cancelledSession s else t,
         registry := w.registry.erase s.uploadId },
       [(id, Emit.pub none), (id, Emit.cbError "Upload cancelled"), (id, Emit.pub none)]) := by
  simp [cancelOne, hfind, cancel_inflight_eq s w.registry hx]

/-- Invoking the cancel capabilities of a list of distinct keys, each owned
by a distinct in-flight session, keeps the session id listing, leaves
untouched every session whose id is not in the list, tags every emit with a
listed key, and drives every listed session to the cancelled state with its
error callback fired exactly once. -/
theorem foldCancel_spec (ids : List Nat) :
    ∀ (w : World),
      ids.Nodup →
      (w.sessions.map Session.uploadId).Nodup →
      (∀ i ∈ ids, ∃ s, s ∈ w.sessions ∧ s.uploadId = i ∧
         s.hook.xhrRef = some XhrPhase.inflight) →
      ((foldCancel w ids).1.sessions.map Session.uploadId =
          w.sessions.map Session.uploadId) ∧
      (∀ t ∈ w.sessions, t.uploadId ∉ ids → t ∈ (foldCancel w ids).1.sessions) ∧
      (∀ pe ∈ (foldCancel w ids).2, pe.1 ∈ ids) ∧
      (∀ i ∈ ids, ∃ s, s ∈ (foldCancel w ids).1.sessions ∧ s.uploadId = i ∧
         CancelledHook s.hook ∧
         ((foldCancel w ids).2.filter
            (fun pe => pe.1 = i && pe.2.isErrorCb "Upload cancelled")).length = 1) := by
  induction ids with
  | nil =>
    intro w _ _ _
    exact ⟨rfl, fun t ht _ => ht, by simp [foldCancel], by simp⟩
  | cons id rest ih =>
    intro w hnd hsnd hin
    obtain ⟨hidrest, hndrest⟩ := List.nodup_cons.mp hnd
    obtain ⟨s, hs, hsid, hsx⟩ := hin id (List.mem_cons_self id rest)
    have hfind := find_session_of_mem hsnd hs hsid
    have hstep := cancelOne_found w id s hfind hsx
    have hcid : (cancelledSession s).uploadId = id := hsid
    have hfold : foldCancel w (id :: rest) =
        ((foldCancel (cancelOne w id).1 rest).1,
          (cancelOne w id).2 ++ (foldCancel (cancelOne w id).1 rest).2) := rfl
    have hw1snd : ((cancelOne w id).1.sessions.map Session.uploadId).Nodup := by
      rw [hstep]
      rw [upd_map_uploadId w.sessions id (cancelledSession s) hcid]
      exact hsnd
    have hw1in : ∀ i ∈ rest, ∃ t, t ∈ (cancelOne w id).1.sessions ∧ t.uploadId = i ∧
        t.hook.xhrRef = some XhrPhase.inflight := by
      intro i hi
      obtain ⟨t, ht, htid, htx⟩ := hin i (List.mem_cons_of_mem _ hi)
      have hne : t.uploadId ≠ id := by
        rw [htid]
        intro hcontra
        exact hidrest (hcontra ▸ hi)
      refine ⟨t, ?_, htid, htx⟩
      rw [hstep]
      exact upd_mem_of_ne ht hne
    obtain ⟨ihmap, ihframe, ihtags, ihmain⟩ := ih (cancelOne w id).1 hndrest hw1snd hw1in
    refine ⟨?_, ?_, ?_, ?_⟩
    · rw [hfold, ihmap, hstep, upd_map_uploadId w.sessions id (cancelledSession s) hcid]
    · intro t ht hnotin
      have hne : t.uploadId ≠ id := fun hcontra =>
        hnotin (by rw [hcontra]; exact List.mem_cons_self id rest)
      have hnr : t.uploadId ∉ rest := fun hmem => hnotin (List.mem_cons_of_mem _ hmem)
      rw [hfold]
      refine ihframe t ?_ hnr
      rw [hstep]
      exact upd_mem_of_ne ht hne
    · intro pe hpe
      rw [hfold] at hpe
      rcases List.mem_append.mp hpe with hin1 | hin2
      · rw [hstep] at hin1
        have hpe1 : pe.1 = id := by
          simp only [List.mem_cons, List.not_mem_nil, or_false] at hin1
          rcases hin1 with h | h | h <;> rw [h]
        rw [hpe1]
        exact List.mem_cons_self id rest
      · exact List.mem_cons_of_mem _ (ihtags pe hin2)
    · intro i hi
      rcases List.mem_cons.mp hi with rfl | hir
      · -- the head key: its session is now the cancelled write-back
        refine ⟨cancelledSession s, ?_, hcid, ⟨rfl, rfl, rfl⟩, ?_⟩
        · rw [hfold]
          refine ihframe (cancelledSession s) ?_ (by rwa [hcid])
          rw [hstep]
          exact upd_self_mem hs hsid
        · rw [hfold, List.filter_append, List.length_append]
          have h1 : ((cancelOne w i).2.filter
              (fun pe => pe.1 = i && pe.2.isErrorCb "Upload cancelled")).length = 1 := by
            rw [hstep]
            simp [Emit.isErrorCb]
          have h2 : ((foldCancel (cancelOne w i).1 rest).2.filter
              (fun pe => pe.1 = i && pe.2.isErrorCb "Upload cancelled")).length = 0 := by
            rw [List.length_eq_zero, List.filter_eq_nil_iff]
            intro pe hpe
            have hmem := ihtags pe hpe
            simp only [Bool.and_eq_true, decide_eq_true_eq]
            intro hcontra
            exact hidrest (hcontra.1 ▸ hmem)
          rw [h1, h2]
      · obtain ⟨t, htmem, htid, htc, htcount⟩ := ihmain i hir
        refine ⟨t, by rw [hfold]; exact htmem, htid, htc, ?_⟩
        rw [hfold, List.filter_append, List.length_append]
        have hne : id ≠ i := fun hcontra => hidrest (hcontra ▸ hir)
        have h1 : ((cancelOne w id).2.filter
            (fun pe => pe.1 = i && pe.2.isErrorCb "Upload cancelled")).length = 0 := by
          rw [hstep]
          simp [Emit.isErrorCb, hne]
        rw [h1, htcount]

/-- C4 amended: when every registered entry belongs to a distinct session
whose transfer is in flight, cancelAll leaves the registry empty and every
previously-registered task reaches the cancelled state with its error
callback fired exactly once; the registry is cleared in every case, but a
task registered while still awaiting the credential fetch escapes
cancellation (see the counterexample). -/
theorem cancelAll_inflight_spec (w : World) (hwf : WFWorld w) :
    (cancelAllActiveUploads w).1.registry = [] ∧
    ∀ i ∈ w.registry, ∃ s, s ∈ (cancelAllActiveUploads w).1.sessions ∧
      s.uploadId = i ∧ CancelledHook s.hook ∧
      ((cancelAllActiveUploads w).2.filter
         (fun pe => pe.1 = i && pe.2.isErrorCb "Upload cancelled")).length = 1 := by
  obtain ⟨hnd, hsnd, hin⟩ := hwf
  obtain ⟨-, -, -, hmain⟩ := foldCancel_spec w.registry w hnd hsnd hin
  exact ⟨rfl, hmain⟩

/-- C4 witness: the theorem applied to a world holding one registered
in-flight session. -/
theorem cancelAll_inflight_spec_witness :
    (let o0 := uploadStart ⟨"report.pdf", 100⟩ 1 HookState.init [];
     let o1 := sendComplete o0.session o0.registry;
     let w : World := ⟨[o1.session], o1.registry⟩;
     WFWorld w ∧
     (cancelAllActiveUploads w).1.registry = [] ∧
     ∀ i ∈ w.registry, ∃ s, s ∈ (cancelAllActiveUploads w).1.sessions ∧
       s.uploadId = i ∧ CancelledHook s.hook ∧
       ((cancelAllActiveUploads w).2.filter
          (fun pe => pe.1 = i && pe.2.isErrorCb "Upload cancelled")).length = 1) := by
  refine ⟨?_, ?_, ?_⟩
  · unfold WFWorld
    decide
  · exact (cancelAll_inflight_spec _ (by unfold WFWorld; decide)).1
  · exact (cancelAll_inflight_spec _ (by unfold WFWorld; decide)).2

end Theorems

end UploadModel
